import Mathlib

/-!
Shallow embedding of the Fantasy_X1 repository (files
utils/retriever.py, utils/live_data.py, streamlit_app.py) and proofs of
the specified properties of its retrieval engine, live-data fetcher and
fantasy-XI selector.

Machine conventions used throughout:
- Python JSON records become structures whose fields are Option values;
  dict.get with a default becomes Option.getD.
- Python string truthiness (if s) becomes a comparison with the empty
  string; Python str.strip becomes String.trim.
- The sentence-embedding model is an abstract function embed from
  String into an arbitrary vector type V; the FAISS index search is an
  abstract function from a query vector and a neighbour count k to the
  list of returned indices, constrained where needed by the documented
  FAISS contract (FaissOutput below).
- I/O outcomes (file reads, HTTP requests) are passed in explicitly as
  values of an outcome type, so that the try/except logic of the source
  becomes a total function of the outcome.
-/

namespace FantasyX1

/-- A player-stat record as read from player_stats.json: the four fields
the document loader reads, each optional as with dict.get. -/
structure PlayerRecord where
  player : Option String
  role : Option String
  form_last_5_matches : Option String
  pitch_performance : Option String
deriving DecidableEq, Repr

/-- The match-conditions record from match_conditions.json. -/
structure MatchConditions where
  venue : Option String
  pitch : Option String
  weather : Option String
  opposition : Option String
deriving DecidableEq, Repr

/-- A FAQ record from faqs.json. -/
structure FaqRecord where
  question : Option String
  answer : Option String
deriving DecidableEq, Repr

/-- The player-stat passage template of Retriever.__init__: name, role,
recent form and pitch performance with the literal fallback placeholders
of the source. -/
def playerText (p : PlayerRecord) : String :=
  (p.player.getD "Unknown player") ++ " is a " ++ (p.role.getD "Unknown role") ++ ".\n" ++
  "Recent Form: " ++ (p.form_last_5_matches.getD "N/A") ++ ".\n" ++
  "Pitch Performance: " ++ (p.pitch_performance.getD "N/A") ++ "."

/-- The match-conditions passage template of Retriever.__init__. -/
def condText (c : MatchConditions) : String :=
  "Venue: " ++ (c.venue.getD "Unknown") ++ ". " ++
  "Pitch Type: " ++ (c.pitch.getD "Unknown") ++ ". " ++
  "Weather Forecast: " ++ (c.weather.getD "Unknown") ++ ". " ++
  "Opponent: " ++ (c.opposition.getD "Unknown") ++ "."

/-- The passage a single FAQ record contributes, if any: the source
strips both fields and appends a Q/A passage only when both are
non-empty after stripping. -/
def faqPassage (f : FaqRecord) : Option String :=
  let question := (f.question.getD "").trim
  let answer := (f.answer.getD "").trim
  if question ≠ "" ∧ answer ≠ "" then some ("Q: " ++ question ++ "\nA: " ++ answer)
  else none

/-- The document-assembly loop of Retriever.__init__, translated
imperatively: self.documents starts empty; one append per player record,
then the match-conditions passage when self.match_conditions is truthy
(none models a falsy value: a failed load or an empty dict), then one
append per FAQ record that passes the strip checks. -/
def buildDocuments (player_stats : List PlayerRecord)
    (match_conditions : Option MatchConditions) (faqs : List FaqRecord) : List String :=
  let docs : List String := []
  let docs := player_stats.foldl (fun acc p => acc ++ [playerText p]) docs
  let docs := match match_conditions with
    | some c => docs ++ [condText c]
    | none => docs
  faqs.foldl (fun acc f =>
    let question := (f.question.getD "").trim
    let answer := (f.answer.getD "").trim
    if question ≠ "" ∧ answer ≠ "" then acc ++ ["Q: " ++ question ++ "\nA: " ++ answer]
    else acc) docs

/-- The state a successful Retriever construction produces: the corpus
and its embeddings, over an abstract vector type V. -/
structure RetrieverState (V : Type) where
  documents : List String
  doc_embeddings : List V
deriving Repr

/-- Retriever.__init__ followed by Retriever._build_index: assemble the
corpus, fail with the source error message when it is empty, otherwise
embed every document in order (model.encode on the batch). -/
def retrieverInit {V : Type} (embed : String → V) (player_stats : List PlayerRecord)
    (match_conditions : Option MatchConditions) (faqs : List FaqRecord) :
    Except String (RetrieverState V) :=
  let documents := buildDocuments player_stats match_conditions faqs
  if documents.isEmpty then Except.error "No documents found for retrieval."
  else Except.ok ⟨documents, documents.map embed⟩

/-- The outcome of reading and JSON-parsing one source file. -/
inductive LoadResult (α : Type) where
  | ok (value : α)
  | failed (msg : String)

/-- Retriever._load_json for a list-shaped source: any exception is
caught and the empty list returned. -/
def load_json_list {α : Type} : LoadResult (List α) → List α
  | .ok v => v
  | .failed _ => []

/-- Retriever._load_json for the match-conditions source feeding the
truthiness test of __init__: a successful load yields the loaded value
(some c when the dict is non-empty, none when it is falsy), a failed
load yields the empty list, which is falsy, hence none. -/
def load_json_mc : LoadResult (Option MatchConditions) → Option MatchConditions
  | .ok v => v
  | .failed _ => none

/-- Retriever construction from the three raw source outcomes: load each
source with _load_json, then run __init__ and _build_index. -/
def retrieverInitFromSources {V : Type} (embed : String → V)
    (psSrc : LoadResult (List PlayerRecord)) (mcSrc : LoadResult (Option MatchConditions))
    (faqSrc : LoadResult (List FaqRecord)) : Except String (RetrieverState V) :=
  retrieverInit embed (load_json_list psSrc) (load_json_mc mcSrc) (load_json_list faqSrc)

/-! ### Query-time retrieval -/

/-- The documented output contract of a FAISS flat-index k-nearest
search over n stored vectors: exactly k labels are returned, each label
is either a valid vector id in 0..n-1 or the padding sentinel -1, and
the number of valid labels is min k n (the sentinel appears exactly when
k exceeds the number of stored vectors). -/
def FaissOutput (n k : Nat) (out : List Int) : Prop :=
  out.length = k ∧
  (∀ i ∈ out, (0 ≤ i ∧ i < (n : Int)) ∨ i = -1) ∧
  (out.filter (fun i => decide (0 ≤ i))).length = min k n

instance (n k : Nat) (out : List Int) : Decidable (FaissOutput n k out) := by
  unfold FaissOutput
  infer_instance

/-- Python list subscription xs[i]: non-negative indices are positions
from the front, negative indices count from the back, and anything
outside -len(xs)..len(xs)-1 raises IndexError (modelled as none). -/
def pyGet {α : Type} (xs : List α) (i : Int) : Option α :=
  if 0 ≤ i then xs.get? i.toNat
  else if (-i).toNat ≤ xs.length then xs.get? (xs.length - (-i).toNat)
  else none

/-- The result-mapping comprehension of Retriever.retrieve: keep each
returned index i with i less than len(documents), and subscript the
document list with Python semantics; an IndexError propagates as an
exception. -/
def listComp (documents : List String) (out : List Int) : Except String (List String) :=
  (out.filter (fun i => decide (i < (documents.length : Int)))).mapM
    (fun i => (pyGet documents i).elim (Except.error "IndexError") Except.ok)

/-- The observable behaviour of one retrieve call: its return value (or
propagated exception) and how many embedding-model and index-search
invocations it made. -/
structure TraceResult where
  result : Except String (List String)
  embed_calls : Nat
  search_calls : Nat
deriving Repr

/-- Retriever.retrieve, instrumented with call counts: the source
returns [] at once when the query string is falsy (empty), and
otherwise embeds the query, searches the index for top_k neighbours and
maps the returned row of indices back to documents. -/
def retrieveTraced {V : Type} (embed : String → V) (search : V → Nat → List Int)
    (documents : List String) (query : String) (top_k : Nat) : TraceResult :=
  if query = "" then ⟨Except.ok [], 0, 0⟩
  else
    let q_emb := embed query
    let indices := search q_emb top_k
    ⟨listComp documents indices, 1, 1⟩

/-- Retriever.retrieve: the value a retrieve call returns. -/
def retrieve {V : Type} (embed : String → V) (search : V → Nat → List Int)
    (documents : List String) (query : String) (top_k : Nat) : Except String (List String) :=
  (retrieveTraced embed search documents query top_k).result

/-! ### utils/live_data.py -/

/-- One element of the teamInfo array: only its name field is read. -/
structure TeamInfoRec where
  name : Option String
deriving DecidableEq, Repr

/-- One raw match object from the currentMatches API payload, over an
abstract type S of score entries (the source copies the score list
verbatim). -/
structure RawMatch (S : Type) where
  teamInfo : Option (List TeamInfoRec)
  venue : Option String
  status : Option String
  dateTimeGMT : Option String
  id : Option String
  score : Option (List S)
deriving Repr

/-- The normalized match dict get_live_match_data builds. -/
structure MatchInfo (S : Type) where
  team1 : String
  team2 : String
  venue : String
  status : String
  start_time : String
  match_id : String
  score : List S
deriving Repr

/-- The decoded JSON body of a currentMatches response. -/
structure ApiBody (S : Type) where
  status : Option String
  reason : Option String
  data : Option (List (RawMatch S))
deriving Repr

/-- The outcome of the HTTP request plus JSON decoding in
get_live_match_data: a non-2xx response (raise_for_status throws
HTTPError), any other exception during the request or response.json(),
or a decoded body. -/
inductive ApiOutcome (S : Type) where
  | httpError (status : Nat) (reason text : String)
  | exn (msg : String)
  | ok (body : ApiBody S)

/-- The match_info construction inside the loop of get_live_match_data.
Subscripting the teamInfo default [ one empty dict ] at position 0
raises IndexError when teamInfo is present but an empty list; the error
value models that exception. -/
def parseMatch {S : Type} (m : RawMatch S) : Except String (MatchInfo S) :=
  let ti := m.teamInfo.getD [⟨none⟩]
  match ti.get? 0 with
  | none => Except.error "IndexError"
  | some t0 =>
    Except.ok
      { team1 := t0.name.getD "N/A"
        team2 :=
          if 1 < (m.teamInfo.getD []).length then
            ((ti.get? 1).map (fun t => t.name.getD "N/A")).getD "N/A"
          else "N/A"
        venue := m.venue.getD "N/A"
        status := m.status.getD "N/A"
        start_time := m.dateTimeGMT.getD "N/A"
        match_id := m.id.getD "N/A"
        score := m.score.getD [] }

/-- get_live_match_data as a function of the request outcome: the two
except clauses catch the HTTPError and every other exception (including
an IndexError thrown mid-loop) and fall through to return [], and a
body whose status is not the string success also returns []. -/
def get_live_match_data {S : Type} (o : ApiOutcome S) : List (MatchInfo S) :=
  match o with
  | .httpError _ _ _ => []
  | .exn _ => []
  | .ok body =>
    if body.status = some "success" then
      match (body.data.getD []).mapM parseMatch with
      | .ok ms => ms
      | .error _ => []
    else []

/-! ### streamlit_app.py: select_fantasy_xi -/

/-- The per-player accumulator value in the stats dict. -/
structure StatVal where
  runs : Int
  wickets : Int
deriving DecidableEq, Repr

/-- A record holding only a name field: the batsman and bowler objects
of a scorecard entry. -/
structure NameRec where
  name : Option String
deriving DecidableEq, Repr

/-- One batting entry of an inning. -/
structure BattingEntry where
  batsman : Option NameRec
  r : Option Int
deriving DecidableEq, Repr

/-- One bowling entry of an inning. -/
structure BowlingEntry where
  bowler : Option NameRec
  w : Option Int
deriving DecidableEq, Repr

/-- One inning of a scorecard. -/
structure InningRec where
  batting : Option (List BattingEntry)
  bowling : Option (List BowlingEntry)
deriving DecidableEq, Repr

/-- The scorecard object select_fantasy_xi receives (only its scorecard
list is read). -/
structure Scorecard where
  scorecard : Option (List InningRec)
deriving DecidableEq, Repr

/-- stats.setdefault(nm, zero counters): a Python dict is modelled as an
insertion-ordered association list with distinct keys; setdefault
appends a fresh entry at the end only when the key is absent. -/
def setdefault (st : List (String × StatVal)) (nm : String) : List (String × StatVal) :=
  if st.any (fun p => p.1 = nm) then st else st ++ [(nm, ⟨0, 0⟩)]

/-- stats[nm]["runs"] += r after the setdefault. -/
def addRuns (st : List (String × StatVal)) (nm : String) (r : Int) : List (String × StatVal) :=
  (setdefault st nm).map (fun p => if p.1 = nm then (p.1, ⟨p.2.runs + r, p.2.wickets⟩) else p)

/-- stats[nm]["wickets"] += w after the setdefault. -/
def addWickets (st : List (String × StatVal)) (nm : String) (w : Int) : List (String × StatVal) :=
  (setdefault st nm).map (fun p => if p.1 = nm then (p.1, ⟨p.2.runs, p.2.wickets + w⟩) else p)

/-- The body of the batting loop: skip an entry whose batsman name is
missing or falsy (empty), otherwise accumulate its runs. -/
def battingStep (st : List (String × StatVal)) (b : BattingEntry) : List (String × StatVal) :=
  match (b.batsman.getD ⟨none⟩).name with
  | none => st
  | some nm => if nm = "" then st else addRuns st nm (b.r.getD 0)

/-- The body of the bowling loop: skip an entry whose bowler name is
missing or falsy, otherwise accumulate its wickets. -/
def bowlingStep (st : List (String × StatVal)) (bw : BowlingEntry) : List (String × StatVal) :=
  match (bw.bowler.getD ⟨none⟩).name with
  | none => st
  | some nm => if nm = "" then st else addWickets st nm (bw.w.getD 0)

/-- The per-inning accumulation: the batting loop then the bowling
loop. -/
def inningStep (st : List (String × StatVal)) (inn : InningRec) : List (String × StatVal) :=
  let st := (inn.batting.getD []).foldl battingStep st
  (inn.bowling.getD []).foldl bowlingStep st

/-- The stats dict after the accumulation loops of select_fantasy_xi. -/
def statsOf (sc : Scorecard) : List (String × StatVal) :=
  (sc.scorecard.getD []).foldl inningStep []

/-- One entry of the players list (the captain and vice_captain keys of
the Python dict are absent before marking, modelled as false). -/
structure Player where
  name : String
  runs : Int
  wickets : Int
  score : Int
  captain : Bool
  vice_captain : Bool
deriving DecidableEq, Repr

/-- Insert a player into a list already sorted by non-increasing score,
before the first element whose score does not exceed it; with foldr
this reproduces the stable descending sort of list.sort with
reverse=True. -/
def insertDesc (x : Player) : List Player → List Player
  | [] => [x]
  | y :: ys => if y.score ≤ x.score then x :: y :: ys else y :: insertDesc x ys

/-- players.sort(key=score, reverse=True): the unique stable
non-increasing reordering by score. -/
def sortByScoreDesc (l : List Player) : List Player :=
  l.foldr insertDesc []

/-- The players-list comprehension of select_fantasy_xi: one entry per
stats item, scored as runs plus wickets times 20. -/
def playerOf (p : String × StatVal) : Player :=
  { name := p.1, runs := p.2.runs, wickets := p.2.wickets,
    score := p.2.runs + p.2.wickets * 20, captain := false, vice_captain := false }

/-- The two trailing marking statements of select_fantasy_xi: when the
xi list is non-empty its first element gets captain set, and when it has
at least two elements its second gets vice_captain set. -/
def markCaptains : List Player → List Player
  | [] => []
  | [p] => [{ p with captain := true }]
  | p :: q :: rest => { p with captain := true } :: { q with vice_captain := true } :: rest

/-- select_fantasy_xi: accumulate stats, build the players list with
score runs + wickets * 20, sort by score descending, take the first 11
and mark captain and vice-captain. -/
def select_fantasy_xi (sc : Scorecard) : List Player :=
  let stats := statsOf sc
  let players := stats.map playerOf
  let players := sortByScoreDesc players
  let xi := players.take 11
  markCaptains xi

/-- The runs a list of batting entries credits to the given name: the
sum of the r fields of the entries naming that player. -/
def battingRunsOf (nm : String) (bs : List BattingEntry) : Int :=
  ((bs.filter (fun b => (b.batsman.getD ⟨none⟩).name = some nm)).map (fun b => b.r.getD 0)).sum

/-- The wickets a list of bowling entries credits to the given name. -/
def bowlingWicketsOf (nm : String) (bws : List BowlingEntry) : Int :=
  ((bws.filter (fun bw => (bw.bowler.getD ⟨none⟩).name = some nm)).map (fun bw => bw.w.getD 0)).sum

/-- The runs one inning's batting credits to the given name. -/
def battingRunsIn (nm : String) (inn : InningRec) : Int :=
  battingRunsOf nm (inn.batting.getD [])

/-- The wickets one inning's bowling credits to the given name. -/
def bowlingWicketsIn (nm : String) (inn : InningRec) : Int :=
  bowlingWicketsOf nm (inn.bowling.getD [])

/-- The runs accumulated for a name across all innings of a scorecard. -/
def totalRuns (sc : Scorecard) (nm : String) : Int :=
  ((sc.scorecard.getD []).map (battingRunsIn nm)).sum

/-- The wickets accumulated for a name across all innings. -/
def totalWickets (sc : Scorecard) (nm : String) : Int :=
  ((sc.scorecard.getD []).map (bowlingWicketsIn nm)).sum

/-- A concrete one-inning scorecard: batters A with 10 runs and B with
50, and bowler C with 2 wickets, so the scores are B 50, C 40, A 10. -/
def exampleScorecard : Scorecard :=
  ⟨some [⟨some [⟨some ⟨some "A"⟩, some 10⟩, ⟨some ⟨some "B"⟩, some 50⟩],
         some [⟨some ⟨some "C"⟩, some 2⟩]⟩]⟩


/-- Lookup in the association-list model of the stats dict, with the
zero counters as the value of an absent key. -/
def getStat : List (String × StatVal) → String → StatVal
  | [], _ => ⟨0, 0⟩
  | p :: ps, nm => if p.1 = nm then p.2 else getStat ps nm

/-- The dict invariant: distinct keys (Python dict keys are unique) and
no key is the empty string (the loops skip falsy names). -/
def GoodStats (st : List (String × StatVal)) : Prop :=
  (st.map Prod.fst).Nodup ∧ ∀ p ∈ st, p.1 ≠ ""

/-! ### Corpus-assembly lemmas -/


theorem foldl_append_one {α β : Type} (f : α → β) (l : List α) (init : List β) :
    l.foldl (fun acc x => acc ++ [f x]) init = init ++ l.map f := by
  induction l generalizing init with
  | nil => simp
  | cons x xs ih => simp [List.foldl_cons, ih]

theorem foldl_append_filterMap {α β : Type} (g : α → Option β) (l : List α) (init : List β) :
    l.foldl (fun acc x => acc ++ (g x).toList) init = init ++ l.filterMap g := by
  induction l generalizing init with
  | nil => simp
  | cons x xs ih =>
    simp only [List.foldl_cons, List.filterMap_cons]
    cases h : g x <;> simp [h, ih]

theorem faq_fold_step (acc : List String) (f : FaqRecord) :
    (let question := (f.question.getD "").trim
     let answer := (f.answer.getD "").trim
     if question ≠ "" ∧ answer ≠ "" then acc ++ ["Q: " ++ question ++ "\nA: " ++ answer]
     else acc) =
    acc ++ (faqPassage f).toList := by
  simp only [faqPassage]
  split <;> simp

theorem buildDocuments_eq (ps : List PlayerRecord) (mc : Option MatchConditions)
    (faqs : List FaqRecord) :
    buildDocuments ps mc faqs =
      ps.map playerText ++
      (match mc with | some c => [condText c] | none => []) ++
      faqs.filterMap faqPassage := by
  unfold buildDocuments
  have hfold :
      (fun (acc : List String) (f : FaqRecord) =>
        let question := (f.question.getD "").trim
        let answer := (f.answer.getD "").trim
        if question ≠ "" ∧ answer ≠ "" then acc ++ ["Q: " ++ question ++ "\nA: " ++ answer]
        else acc) =
      (fun (acc : List String) (f : FaqRecord) => acc ++ (faqPassage f).toList) := by
    funext acc f
    exact faq_fold_step acc f
  rw [hfold, foldl_append_filterMap, foldl_append_one]
  cases mc <;> simp

/-! ### Lemmas about the stats dict -/

theorem getStat_append_default (st : List (String × StatVal)) (nm₀ nm : String) :
    getStat (st ++ [(nm₀, (⟨0, 0⟩ : StatVal))]) nm = getStat st nm := by
  induction st with
  | nil =>
    simp only [List.nil_append, getStat]
    split <;> rfl
  | cons p ps ih =>
    simp only [List.cons_append, getStat]
    split <;> simp [ih]

theorem getStat_setdefault (st : List (String × StatVal)) (nm₀ nm : String) :
    getStat (setdefault st nm₀) nm = getStat st nm := by
  unfold setdefault
  split
  · rfl
  · exact getStat_append_default st nm₀ nm

theorem any_setdefault (st : List (String × StatVal)) (nm : String) :
    (setdefault st nm).any (fun p => p.1 = nm) = true := by
  unfold setdefault
  split
  · assumption
  · simp

theorem getStat_map_update_same (st : List (String × StatVal)) (nm : String)
    (f : StatVal → StatVal) (h : st.any (fun p => p.1 = nm) = true) :
    getStat (st.map (fun p => if p.1 = nm then (p.1, f p.2) else p)) nm = f (getStat st nm) := by
  induction st with
  | nil => simp at h
  | cons p ps ih =>
    by_cases hp : p.1 = nm
    · simp [getStat, hp]
    · simp only [List.any_cons, Bool.or_eq_true, decide_eq_true_eq] at h
      rcases h with h | h
      · exact absurd h hp
      · simp [getStat, hp, ih h]

theorem getStat_map_update_other (st : List (String × StatVal)) (nm : String)
    (f : StatVal → StatVal) (nm' : String) (h : nm' ≠ nm) :
    getStat (st.map (fun p => if p.1 = nm then (p.1, f p.2) else p)) nm' = getStat st nm' := by
  induction st with
  | nil => rfl
  | cons p ps ih =>
    by_cases hp : p.1 = nm
    · have hp' : p.1 ≠ nm' := by
        rw [hp]
        exact fun hc => h hc.symm
      simp [getStat, hp, hp', Ne.symm h, h, ih]
    · by_cases hq : p.1 = nm'
      · simp [getStat, hp, hq, Ne.symm h, h]
      · simp [getStat, hp, hq, Ne.symm h, h, ih]

theorem getStat_addRuns_same (st : List (String × StatVal)) (nm : String) (r : Int) :
    getStat (addRuns st nm r) nm =
      ⟨(getStat st nm).runs + r, (getStat st nm).wickets⟩ := by
  have h1 := getStat_map_update_same (setdefault st nm) nm
    (fun v => ⟨v.runs + r, v.wickets⟩) (any_setdefault st nm)
  rw [getStat_setdefault] at h1
  exact h1

theorem getStat_addRuns_other (st : List (String × StatVal)) (nm : String) (r : Int)
    (nm' : String) (h : nm' ≠ nm) :
    getStat (addRuns st nm r) nm' = getStat st nm' := by
  have h1 := getStat_map_update_other (setdefault st nm) nm
    (fun v => ⟨v.runs + r, v.wickets⟩) nm' h
  rw [getStat_setdefault] at h1
  exact h1

theorem getStat_addWickets_same (st : List (String × StatVal)) (nm : String) (w : Int) :
    getStat (addWickets st nm w) nm =
      ⟨(getStat st nm).runs, (getStat st nm).wickets + w⟩ := by
  have h1 := getStat_map_update_same (setdefault st nm) nm
    (fun v => ⟨v.runs, v.wickets + w⟩) (any_setdefault st nm)
  rw [getStat_setdefault] at h1
  exact h1

theorem getStat_addWickets_other (st : List (String × StatVal)) (nm : String) (w : Int)
    (nm' : String) (h : nm' ≠ nm) :
    getStat (addWickets st nm w) nm' = getStat st nm' := by
  have h1 := getStat_map_update_other (setdefault st nm) nm
    (fun v => ⟨v.runs, v.wickets + w⟩) nm' h
  rw [getStat_setdefault] at h1
  exact h1

theorem battingRunsOf_cons (nm : String) (b : BattingEntry) (bs : List BattingEntry) :
    battingRunsOf nm (b :: bs) =
      (if (b.batsman.getD ⟨none⟩).name = some nm then b.r.getD 0 else 0) +
        battingRunsOf nm bs := by
  unfold battingRunsOf
  rw [List.filter_cons]
  by_cases hb : (b.batsman.getD ⟨none⟩).name = some nm <;> simp [hb]

theorem bowlingWicketsOf_cons (nm : String) (bw : BowlingEntry) (bws : List BowlingEntry) :
    bowlingWicketsOf nm (bw :: bws) =
      (if (bw.bowler.getD ⟨none⟩).name = some nm then bw.w.getD 0 else 0) +
        bowlingWicketsOf nm bws := by
  unfold bowlingWicketsOf
  rw [List.filter_cons]
  by_cases hb : (bw.bowler.getD ⟨none⟩).name = some nm <;> simp [hb]

theorem battingStep_runs (st : List (String × StatVal)) (b : BattingEntry) (nm : String)
    (hnm : nm ≠ "") :
    (getStat (battingStep st b) nm).runs =
      (getStat st nm).runs +
        (if (b.batsman.getD ⟨none⟩).name = some nm then b.r.getD 0 else 0) := by
  unfold battingStep
  cases hb : (b.batsman.getD ⟨none⟩).name with
  | none => simp [hb]
  | some nm₀ =>
    by_cases h0 : nm₀ = ""
    · subst h0
      simp [Ne.symm hnm]
    · by_cases heq : nm₀ = nm
      · subst heq
        simp [h0, getStat_addRuns_same]
      · simp [h0, heq, getStat_addRuns_other st nm₀ _ nm (Ne.symm heq)]

theorem battingStep_wickets (st : List (String × StatVal)) (b : BattingEntry) (nm : String) :
    (getStat (battingStep st b) nm).wickets = (getStat st nm).wickets := by
  unfold battingStep
  cases hb : (b.batsman.getD ⟨none⟩).name with
  | none => rfl
  | some nm₀ =>
    by_cases h0 : nm₀ = ""
    · simp [h0]
    · by_cases heq : nm = nm₀
      · subst heq
        simp [h0, getStat_addRuns_same]
      · simp [h0, getStat_addRuns_other st nm₀ _ nm heq]

theorem bowlingStep_wickets (st : List (String × StatVal)) (bw : BowlingEntry) (nm : String)
    (hnm : nm ≠ "") :
    (getStat (bowlingStep st bw) nm).wickets =
      (getStat st nm).wickets +
        (if (bw.bowler.getD ⟨none⟩).name = some nm then bw.w.getD 0 else 0) := by
  unfold bowlingStep
  cases hb : (bw.bowler.getD ⟨none⟩).name with
  | none => simp [hb]
  | some nm₀ =>
    by_cases h0 : nm₀ = ""
    · subst h0
      simp [Ne.symm hnm]
    · by_cases heq : nm₀ = nm
      · subst heq
        simp [h0, getStat_addWickets_same]
      · simp [h0, heq, getStat_addWickets_other st nm₀ _ nm (Ne.symm heq)]

theorem bowlingStep_runs (st : List (String × StatVal)) (bw : BowlingEntry) (nm : String) :
    (getStat (bowlingStep st bw) nm).runs = (getStat st nm).runs := by
  unfold bowlingStep
  cases hb : (bw.bowler.getD ⟨none⟩).name with
  | none => rfl
  | some nm₀ =>
    by_cases h0 : nm₀ = ""
    · simp [h0]
    · by_cases heq : nm = nm₀
      · subst heq
        simp [h0, getStat_addWickets_same]
      · simp [h0, getStat_addWickets_other st nm₀ _ nm heq]

theorem foldl_battingStep_runs (bs : List BattingEntry) (st : List (String × StatVal))
    (nm : String) (hnm : nm ≠ "") :
    (getStat (bs.foldl battingStep st) nm).runs =
      (getStat st nm).runs + battingRunsOf nm bs := by
  induction bs generalizing st with
  | nil => simp [battingRunsOf]
  | cons b bs ih =>
    rw [List.foldl_cons, ih (battingStep st b), battingStep_runs st b nm hnm,
      battingRunsOf_cons]
    ring

theorem foldl_battingStep_wickets (bs : List BattingEntry) (st : List (String × StatVal))
    (nm : String) :
    (getStat (bs.foldl battingStep st) nm).wickets = (getStat st nm).wickets := by
  induction bs generalizing st with
  | nil => rfl
  | cons b bs ih => rw [List.foldl_cons, ih (battingStep st b), battingStep_wickets]

theorem foldl_bowlingStep_wickets (bws : List BowlingEntry) (st : List (String × StatVal))
    (nm : String) (hnm : nm ≠ "") :
    (getStat (bws.foldl bowlingStep st) nm).wickets =
      (getStat st nm).wickets + bowlingWicketsOf nm bws := by
  induction bws generalizing st with
  | nil => simp [bowlingWicketsOf]
  | cons bw bws ih =>
    rw [List.foldl_cons, ih (bowlingStep st bw), bowlingStep_wickets st bw nm hnm,
      bowlingWicketsOf_cons]
    ring

theorem foldl_bowlingStep_runs (bws : List BowlingEntry) (st : List (String × StatVal))
    (nm : String) :
    (getStat (bws.foldl bowlingStep st) nm).runs = (getStat st nm).runs := by
  induction bws generalizing st with
  | nil => rfl
  | cons bw bws ih => rw [List.foldl_cons, ih (bowlingStep st bw), bowlingStep_runs]

theorem inningStep_runs (st : List (String × StatVal)) (inn : InningRec) (nm : String)
    (hnm : nm ≠ "") :
    (getStat (inningStep st inn) nm).runs = (getStat st nm).runs + battingRunsIn nm inn := by
  unfold inningStep battingRunsIn
  rw [foldl_bowlingStep_runs, foldl_battingStep_runs _ _ _ hnm]

theorem inningStep_wickets (st : List (String × StatVal)) (inn : InningRec) (nm : String)
    (hnm : nm ≠ "") :
    (getStat (inningStep st inn) nm).wickets =
      (getStat st nm).wickets + bowlingWicketsIn nm inn := by
  unfold inningStep bowlingWicketsIn
  rw [foldl_bowlingStep_wickets _ _ _ hnm, foldl_battingStep_wickets]

theorem foldl_inningStep_runs (inns : List InningRec) (st : List (String × StatVal))
    (nm : String) (hnm : nm ≠ "") :
    (getStat (inns.foldl inningStep st) nm).runs =
      (getStat st nm).runs + (inns.map (battingRunsIn nm)).sum := by
  induction inns generalizing st with
  | nil => simp
  | cons inn inns ih =>
    rw [List.foldl_cons, ih (inningStep st inn), inningStep_runs st inn nm hnm]
    simp
    ring

theorem foldl_inningStep_wickets (inns : List InningRec) (st : List (String × StatVal))
    (nm : String) (hnm : nm ≠ "") :
    (getStat (inns.foldl inningStep st) nm).wickets =
      (getStat st nm).wickets + (inns.map (bowlingWicketsIn nm)).sum := by
  induction inns generalizing st with
  | nil => simp
  | cons inn inns ih =>
    rw [List.foldl_cons, ih (inningStep st inn), inningStep_wickets st inn nm hnm]
    simp
    ring

theorem statsOf_runs (sc : Scorecard) (nm : String) (hnm : nm ≠ "") :
    (getStat (statsOf sc) nm).runs = totalRuns sc nm := by
  unfold statsOf totalRuns
  rw [foldl_inningStep_runs _ _ _ hnm]
  simp [getStat]

theorem statsOf_wickets (sc : Scorecard) (nm : String) (hnm : nm ≠ "") :
    (getStat (statsOf sc) nm).wickets = totalWickets sc nm := by
  unfold statsOf totalWickets
  rw [foldl_inningStep_wickets _ _ _ hnm]
  simp [getStat]

theorem goodStats_nil : GoodStats [] := by
  constructor
  · exact List.nodup_nil
  · intro p hp
    simp at hp

theorem goodStats_setdefault (st : List (String × StatVal)) (nm : String)
    (h : GoodStats st) (hnm : nm ≠ "") : GoodStats (setdefault st nm) := by
  unfold setdefault
  split
  · exact h
  · rename_i hany
    constructor
    · rw [List.map_append]
      rw [List.nodup_append]
      refine ⟨h.1, by simp, ?_⟩
      intro x hx
      simp only [List.map_cons, List.map_nil, List.mem_singleton]
      intro hx1
      subst hx1
      apply hany
      rw [List.any_eq_true]
      simp only [List.mem_map] at hx
      obtain ⟨p, hp, hpx⟩ := hx
      exact ⟨p, hp, by simp [hpx]⟩
    · intro p hp
      rcases List.mem_append.mp hp with h1 | h1
      · exact h.2 p h1
      · simp only [List.mem_singleton] at h1
        subst h1
        exact hnm

theorem keys_map_update (st : List (String × StatVal)) (nm : String) (f : StatVal → StatVal) :
    (st.map (fun p => if p.1 = nm then (p.1, f p.2) else p)).map Prod.fst = st.map Prod.fst := by
  rw [List.map_map]
  apply List.map_congr_left
  intro p _
  by_cases hp : p.1 = nm <;> simp [hp]

theorem goodStats_map_update (st : List (String × StatVal)) (nm : String)
    (f : StatVal → StatVal) (h : GoodStats st) :
    GoodStats (st.map (fun p => if p.1 = nm then (p.1, f p.2) else p)) := by
  constructor
  · rw [keys_map_update]
    exact h.1
  · intro p hp
    simp only [List.mem_map] at hp
    obtain ⟨q, hq, hqp⟩ := hp
    have : p.1 = q.1 := by
      subst hqp
      by_cases h1 : q.1 = nm <;> simp [h1]
    rw [this]
    exact h.2 q hq

theorem goodStats_addRuns (st : List (String × StatVal)) (nm : String) (r : Int)
    (h : GoodStats st) (hnm : nm ≠ "") : GoodStats (addRuns st nm r) := by
  unfold addRuns
  exact goodStats_map_update (setdefault st nm) nm (fun v => ⟨v.runs + r, v.wickets⟩)
    (goodStats_setdefault st nm h hnm)

theorem goodStats_addWickets (st : List (String × StatVal)) (nm : String) (w : Int)
    (h : GoodStats st) (hnm : nm ≠ "") : GoodStats (addWickets st nm w) := by
  unfold addWickets
  exact goodStats_map_update (setdefault st nm) nm (fun v => ⟨v.runs, v.wickets + w⟩)
    (goodStats_setdefault st nm h hnm)

theorem goodStats_battingStep (st : List (String × StatVal)) (b : BattingEntry)
    (h : GoodStats st) : GoodStats (battingStep st b) := by
  unfold battingStep
  cases hb : (b.batsman.getD ⟨none⟩).name with
  | none => exact h
  | some nm₀ =>
    by_cases h0 : nm₀ = ""
    · simp [h0, h]
    · simp only [h0, if_false]
      exact goodStats_addRuns st nm₀ _ h h0

theorem goodStats_bowlingStep (st : List (String × StatVal)) (bw : BowlingEntry)
    (h : GoodStats st) : GoodStats (bowlingStep st bw) := by
  unfold bowlingStep
  cases hb : (bw.bowler.getD ⟨none⟩).name with
  | none => exact h
  | some nm₀ =>
    by_cases h0 : nm₀ = ""
    · simp [h0, h]
    · simp only [h0, if_false]
      exact goodStats_addWickets st nm₀ _ h h0

theorem goodStats_foldl {α : Type} (step : List (String × StatVal) → α → List (String × StatVal))
    (hstep : ∀ st x, GoodStats st → GoodStats (step st x)) (l : List α)
    (st : List (String × StatVal)) (h : GoodStats st) : GoodStats (l.foldl step st) := by
  induction l generalizing st with
  | nil => exact h
  | cons x xs ih => exact ih (step st x) (hstep st x h)

theorem goodStats_inningStep (st : List (String × StatVal)) (inn : InningRec)
    (h : GoodStats st) : GoodStats (inningStep st inn) := by
  unfold inningStep
  exact goodStats_foldl bowlingStep goodStats_bowlingStep _ _
    (goodStats_foldl battingStep goodStats_battingStep _ _ h)

theorem goodStats_statsOf (sc : Scorecard) : GoodStats (statsOf sc) :=
  goodStats_foldl inningStep goodStats_inningStep _ _ goodStats_nil

theorem getStat_mem (st : List (String × StatVal)) (nm : String) (v : StatVal)
    (h : GoodStats st) (hm : (nm, v) ∈ st) : getStat st nm = v := by
  induction st with
  | nil => simp at hm
  | cons p ps ih =>
    rcases List.mem_cons.mp hm with h1 | h1
    · rw [← h1]
      simp [getStat]
    · have hnods : (ps.map Prod.fst).Nodup := (List.nodup_cons.mp h.1).2
      have hnot : p.1 ∉ ps.map Prod.fst := (List.nodup_cons.mp h.1).1
      have hp1 : p.1 ≠ nm := by
        intro hc
        apply hnot
        rw [hc]
        exact List.mem_map.mpr ⟨(nm, v), h1, rfl⟩
      simp only [getStat, hp1, if_false]
      have h2 : GoodStats ps := ⟨hnods, fun q hq => h.2 q (List.mem_cons.mpr (Or.inr hq))⟩
      exact ih h2 h1

theorem mem_statsOf (sc : Scorecard) (nm : String) (v : StatVal)
    (h : (nm, v) ∈ statsOf sc) :
    nm ≠ "" ∧ v.runs = totalRuns sc nm ∧ v.wickets = totalWickets sc nm := by
  have hg := goodStats_statsOf sc
  have hnm : nm ≠ "" := hg.2 (nm, v) h
  have hv : getStat (statsOf sc) nm = v := getStat_mem _ _ _ hg h
  refine ⟨hnm, ?_, ?_⟩
  · rw [← hv, statsOf_runs sc nm hnm]
  · rw [← hv, statsOf_wickets sc nm hnm]

/-! ### Sorting lemmas -/

theorem mem_insertDesc (x y : Player) (l : List Player) :
    y ∈ insertDesc x l ↔ y = x ∨ y ∈ l := by
  induction l with
  | nil => simp [insertDesc]
  | cons z zs ih =>
    unfold insertDesc
    split
    · simp
    · simp only [List.mem_cons, ih]
      tauto

theorem pairwise_insertDesc (x : Player) (l : List Player)
    (h : l.Pairwise (fun a b => b.score ≤ a.score)) :
    (insertDesc x l).Pairwise (fun a b => b.score ≤ a.score) := by
  induction l with
  | nil => simp [insertDesc]
  | cons y ys ih =>
    unfold insertDesc
    split
    · rename_i hle
      refine List.Pairwise.cons ?_ h
      intro z hz
      rcases List.mem_cons.mp hz with h1 | h1
      · rw [h1]
        exact hle
      · exact le_trans (List.rel_of_pairwise_cons h h1) hle
    · rename_i hgt
      push_neg at hgt
      have hys := (List.pairwise_cons.mp h).2
      refine List.Pairwise.cons ?_ (ih hys)
      intro z hz
      rcases (mem_insertDesc x z ys).mp hz with h1 | h1
      · rw [h1]
        exact le_of_lt hgt
      · exact List.rel_of_pairwise_cons h h1

theorem pairwise_sortByScoreDesc (l : List Player) :
    (sortByScoreDesc l).Pairwise (fun a b => b.score ≤ a.score) := by
  unfold sortByScoreDesc
  induction l with
  | nil => simp
  | cons x xs ih => exact pairwise_insertDesc x _ ih

theorem mem_sortByScoreDesc (y : Player) (l : List Player) :
    y ∈ sortByScoreDesc l ↔ y ∈ l := by
  unfold sortByScoreDesc
  induction l with
  | nil => simp
  | cons x xs ih =>
    rw [List.foldr_cons, mem_insertDesc, ih, List.mem_cons]

/-! ### Lemmas about the captain marking -/

theorem length_markCaptains (l : List Player) : (markCaptains l).length = l.length := by
  cases l with
  | nil => rfl
  | cons p t =>
    cases t with
    | nil => rfl
    | cons q rest => rfl

theorem mem_markCaptains (l : List Player) (p : Player) (hp : p ∈ markCaptains l) :
    ∃ q ∈ l, p.name = q.name ∧ p.runs = q.runs ∧ p.wickets = q.wickets ∧ p.score = q.score := by
  cases l with
  | nil => simp [markCaptains] at hp
  | cons a t =>
    cases t with
    | nil =>
      simp only [markCaptains, List.mem_singleton] at hp
      subst hp
      exact ⟨a, by simp, rfl, rfl, rfl, rfl⟩
    | cons b rest =>
      simp only [markCaptains, List.mem_cons] at hp
      rcases hp with hp | hp | hp
      · subst hp
        exact ⟨a, by simp, rfl, rfl, rfl, rfl⟩
      · subst hp
        exact ⟨b, by simp, rfl, rfl, rfl, rfl⟩
      · exact ⟨p, by simp [hp], rfl, rfl, rfl, rfl⟩

theorem pairwise_markCaptains (l : List Player)
    (h : l.Pairwise (fun a b => b.score ≤ a.score)) :
    (markCaptains l).Pairwise (fun a b => b.score ≤ a.score) := by
  cases l with
  | nil => simp [markCaptains]
  | cons a t =>
    cases t with
    | nil => simp [markCaptains]
    | cons b rest =>
      obtain ⟨ha, hrest⟩ := List.pairwise_cons.mp h
      obtain ⟨hb, hrest2⟩ := List.pairwise_cons.mp hrest
      refine List.Pairwise.cons ?_ (List.Pairwise.cons ?_ hrest2)
      · intro z hz
        rcases List.mem_cons.mp hz with h1 | h1
        · subst h1
          exact ha b (List.mem_cons_self b rest)
        · exact ha z (List.mem_cons.mpr (Or.inr h1))
      · intro z hz
        exact hb z hz

theorem markCaptains_head (l : List Player) (p : Player) (t : List Player)
    (h : markCaptains l = p :: t) : p.captain = true := by
  cases l with
  | nil => simp [markCaptains] at h
  | cons a t₀ =>
    cases t₀ with
    | nil =>
      simp only [markCaptains, List.cons.injEq] at h
      rw [← h.1]
    | cons b rest =>
      simp only [markCaptains, List.cons.injEq] at h
      rw [← h.1]

theorem markCaptains_second (l : List Player) (p q : Player) (t : List Player)
    (h : markCaptains l = p :: q :: t) : q.vice_captain = true := by
  cases l with
  | nil => simp [markCaptains] at h
  | cons a t₀ =>
    cases t₀ with
    | nil => simp [markCaptains] at h
    | cons b rest =>
      simp only [markCaptains, List.cons.injEq] at h
      rw [← h.2.1]

/-! ### Specified properties of Retriever construction -/

/-- C4: constructing a Retriever whose three sources together yield zero
passages fails with the empty-corpus error instead of producing a usable
zero-document instance. -/
theorem empty_corpus_fatal {V : Type} (embed : String → V) (ps : List PlayerRecord)
    (mc : Option MatchConditions) (faqs : List FaqRecord)
    (h : buildDocuments ps mc faqs = []) :
    retrieverInit embed ps mc faqs = Except.error "No documents found for retrieval." := by
  simp [retrieverInit, h]

/-- Witness for C4: three empty sources yield an empty corpus and the
construction error. -/
theorem empty_corpus_fatal_witness :
    buildDocuments [] none [] = [] ∧
    retrieverInit (fun q : String => q) [] none [] =
      Except.error "No documents found for retrieval." :=
  ⟨rfl, empty_corpus_fatal (fun q : String => q) [] none [] rfl⟩

/-- C5: every successful construction stores exactly one embedding per
corpus passage, and the vector at position i is the embedding of the
passage at position i; in this functional model nothing ever rewrites
the stored corpus, vectors or index, so the alignment persists. -/
theorem retriever_alignment {V : Type} (embed : String → V) (ps : List PlayerRecord)
    (mc : Option MatchConditions) (faqs : List FaqRecord) (st : RetrieverState V)
    (h : retrieverInit embed ps mc faqs = Except.ok st) :
    st.doc_embeddings.length = st.documents.length ∧
    ∀ i : Nat, st.doc_embeddings[i]? = (st.documents[i]?).map embed := by
  unfold retrieverInit at h
  cases hd : (buildDocuments ps mc faqs).isEmpty with
  | true => simp [hd] at h
  | false =>
    simp only [hd, Bool.false_eq_true, if_false, Except.ok.injEq] at h
    rw [← h]
    exact ⟨List.length_map _ _, fun i => List.getElem?_map embed _ i⟩

/-- Witness for C5: a concrete one-passage construction is aligned. -/
theorem retriever_alignment_witness :
    ([(0 : Nat)].length = [condText ⟨none, none, none, none⟩].length) ∧
    (∀ i : Nat, [(0 : Nat)][i]? =
      ([condText ⟨none, none, none, none⟩][i]?).map (fun _ => (0 : Nat))) :=
  retriever_alignment (fun _ => (0 : Nat)) [] (some ⟨none, none, none, none⟩) []
    ⟨[condText ⟨none, none, none, none⟩], [0]⟩ rfl

/-- C6: the corpus assembled at construction is the player-stat passages
in record order, then the single match-conditions passage exactly when a
truthy match-conditions record exists, then the passages of the valid
FAQ records in record order. -/
theorem corpus_assembly_order (ps : List PlayerRecord) (mc : Option MatchConditions)
    (faqs : List FaqRecord) :
    buildDocuments ps mc faqs =
      ps.map playerText ++
      (match mc with | some c => [condText c] | none => []) ++
      faqs.filterMap faqPassage :=
  buildDocuments_eq ps mc faqs

/-- C7: a FAQ record whose question or answer trims to empty contributes
no passage to the corpus, and one with both fields non-empty after
trimming contributes exactly one passage, the question line followed by
the answer line. -/
theorem faq_record_contribution (ps : List PlayerRecord) (mc : Option MatchConditions)
    (faqs₁ faqs₂ : List FaqRecord) (f : FaqRecord) :
    buildDocuments ps mc (faqs₁ ++ f :: faqs₂) =
      buildDocuments ps mc faqs₁ ++
      (if (f.question.getD "").trim ≠ "" ∧ (f.answer.getD "").trim ≠ "" then
        ["Q: " ++ (f.question.getD "").trim ++ "\nA: " ++ (f.answer.getD "").trim]
      else []) ++
      faqs₂.filterMap faqPassage := by
  rw [buildDocuments_eq, buildDocuments_eq, List.filterMap_append, List.filterMap_cons]
  by_cases hc : (f.question.getD "").trim ≠ "" ∧ (f.answer.getD "").trim ≠ ""
  · simp [faqPassage, hc, List.append_assoc]
  · simp [faqPassage, hc, List.append_assoc]

/-- C8: when the match-conditions source fails to load while the other
sources succeed, construction proceeds with the falsy empty substitute,
behaves exactly as with no match-conditions record, and succeeds
whenever the remaining sources yield at least one passage, with a corpus
built from player stats and FAQs only. -/
theorem malformed_source_resilience {V : Type} (embed : String → V)
    (ps : List PlayerRecord) (faqs : List FaqRecord) (msg : String) :
    retrieverInitFromSources embed (.ok ps) (.failed msg) (.ok faqs) =
      retrieverInit embed ps none faqs ∧
    (ps.map playerText ++ faqs.filterMap faqPassage ≠ [] →
      retrieverInitFromSources embed (.ok ps) (.failed msg) (.ok faqs) =
        Except.ok ⟨ps.map playerText ++ faqs.filterMap faqPassage,
          (ps.map playerText ++ faqs.filterMap faqPassage).map embed⟩) := by
  constructor
  · rfl
  · intro h
    have hb : buildDocuments ps none faqs = ps.map playerText ++ faqs.filterMap faqPassage := by
      rw [buildDocuments_eq]
      simp
    simp [retrieverInitFromSources, load_json_list, load_json_mc, retrieverInit, hb,
      List.isEmpty_iff, h]

/-- Witness for C8: a corrupt match-conditions source with one player
record still constructs, and the corpus is the single player passage. -/
theorem malformed_source_resilience_witness :
    retrieverInitFromSources (fun _ : String => (0 : Nat))
        (.ok [⟨some "A", none, none, none⟩]) (.failed "corrupt file") (.ok []) =
      Except.ok ⟨[⟨some "A", none, none, none⟩].map playerText ++
          ([] : List FaqRecord).filterMap faqPassage,
        ([⟨some "A", none, none, none⟩].map playerText ++
          ([] : List FaqRecord).filterMap faqPassage).map (fun _ => (0 : Nat))⟩ :=
  (malformed_source_resilience (fun _ => (0 : Nat)) [⟨some "A", none, none, none⟩] []
    "corrupt file").2 (by simp)

/-! ### Specified properties of retrieve -/

/-- C1: fails on the code. With a one-passage corpus and top_k 3, a row
the index contract forces, the row with labels 0, -1, -1, makes
retrieve return three strings: the sentinel -1 passes the bound check
(it is less than the corpus length) and Python indexing maps it to the
last passage, so the result is padded beyond the corpus size instead of
being cut to all available neighbors. -/
theorem retrieve_pads_beyond_corpus :
    FaissOutput 1 3 [0, -1, -1] ∧
    retrieve (fun _ : String => (0 : Nat)) (fun _ _ => [0, -1, -1]) ["p"] "q" 3 =
      Except.ok ["p", "p", "p"] ∧
    ¬((["p", "p", "p"] : List String).length ≤ (["p"] : List String).length) :=
  ⟨by decide, rfl, by decide⟩

/-- C2: fails on the code. The bound check drops only indices that are
too large: the FAISS sentinel -1, which is not a valid position of the
corpus, passes the check and is resolved by Python negative indexing to
the last passage instead of being dropped, so the result keeps all three
entries of the row 0, -1, -1 over a one-passage corpus. -/
theorem listComp_keeps_invalid_index :
    FaissOutput 1 3 [0, -1, -1] ∧
    ¬(0 ≤ (-1 : Int) ∧ (-1 : Int) < (1 : Int)) ∧
    ([0, -1, -1].filter (fun i => decide (i < ((["p"] : List String).length : Int))) =
      [0, -1, -1]) ∧
    listComp ["p"] [0, -1, -1] = Except.ok ["p", "p", "p"] :=
  ⟨by decide, by decide, by decide, rfl⟩

/-- C3: counterexample. A whitespace-only query is truthy in Python, so
retrieve does not short-circuit: on a three-space query it invokes the
embedding model once, searches once, and returns a non-empty result,
contradicting the claimed whitespace no-op. -/
theorem whitespace_query_invokes_model :
    FaissOutput 1 1 [0] ∧
    (retrieveTraced (fun _ : String => (0 : Nat)) (fun _ _ => [0]) ["p"] "   " 1).embed_calls
      = 1 ∧
    (retrieveTraced (fun _ : String => (0 : Nat)) (fun _ _ => [0]) ["p"] "   " 1).search_calls
      = 1 ∧
    (retrieveTraced (fun _ : String => (0 : Nat)) (fun _ _ => [0]) ["p"] "   " 1).result =
      Except.ok ["p"] :=
  ⟨by decide, rfl, rfl, rfl⟩

/-- C3 (amended): only the genuinely empty query short-circuits:
retrieve on the empty string returns the empty sequence at once, with no
embedding-model call and no index search; a whitespace-only non-empty
query is processed like any other query. -/
theorem empty_query_noop {V : Type} (embed : String → V) (search : V → Nat → List Int)
    (documents : List String) (top_k : Nat) :
    retrieveTraced embed search documents "" top_k = ⟨Except.ok [], 0, 0⟩ :=
  rfl

/-! ### Specified properties of select_fantasy_xi and live data -/

/-- C9: select_fantasy_xi returns at most 11 players; every returned
player carries the runs and wickets accumulated for that name across
all innings and is scored as runs plus 20 times wickets; the list is
sorted by non-increasing score; a non-empty result has its first
element marked captain, and a result with at least two elements has its
second marked vice-captain. -/
theorem select_fantasy_xi_spec (sc : Scorecard) :
    (select_fantasy_xi sc).length ≤ 11 ∧
    (∀ p ∈ select_fantasy_xi sc,
      p.score = p.runs + 20 * p.wickets ∧
      p.runs = totalRuns sc p.name ∧ p.wickets = totalWickets sc p.name) ∧
    (select_fantasy_xi sc).Pairwise (fun a b => b.score ≤ a.score) ∧
    (∀ p t, select_fantasy_xi sc = p :: t → p.captain = true) ∧
    (∀ p q t, select_fantasy_xi sc = p :: q :: t → q.vice_captain = true) := by
  have hx : select_fantasy_xi sc =
      markCaptains ((sortByScoreDesc ((statsOf sc).map playerOf)).take 11) := rfl
  refine ⟨?_, ?_, ?_, ?_, ?_⟩
  · rw [hx, length_markCaptains, List.length_take]
    exact min_le_left _ _
  · intro p hp
    rw [hx] at hp
    obtain ⟨q, hq, hname, hruns, hw, hscore⟩ := mem_markCaptains _ p hp
    have hq2 : q ∈ sortByScoreDesc ((statsOf sc).map playerOf) := List.mem_of_mem_take hq
    have hq3 : q ∈ (statsOf sc).map playerOf := (mem_sortByScoreDesc q _).mp hq2
    obtain ⟨s, hs, hqs⟩ := List.mem_map.mp hq3
    obtain ⟨hne, hr, hwk⟩ := mem_statsOf sc s.1 s.2 hs
    refine ⟨?_, ?_, ?_⟩
    · rw [hscore, hruns, hw, ← hqs]
      show s.2.runs + s.2.wickets * 20 = s.2.runs + 20 * s.2.wickets
      ring
    · rw [hruns, hname, ← hqs]
      exact hr
    · rw [hw, hname, ← hqs]
      exact hwk
  · rw [hx]
    exact pairwise_markCaptains _
      (List.Pairwise.sublist (List.take_sublist _ _) (pairwise_sortByScoreDesc _))
  · intro p t h
    exact markCaptains_head _ p t (hx.symm.trans h)
  · intro p q t h
    exact markCaptains_second _ p q t (hx.symm.trans h)

/-- Witness for C9 on the concrete scorecard: the bound and sortedness
hold, and the computed first two players are marked captain and
vice-captain. -/
theorem select_fantasy_xi_spec_witness :
    (select_fantasy_xi exampleScorecard).length ≤ 11 ∧
    (select_fantasy_xi exampleScorecard).Pairwise (fun a b => b.score ≤ a.score) ∧
    (⟨"B", 50, 0, 50, true, false⟩ : Player).captain = true ∧
    (⟨"C", 0, 2, 40, false, true⟩ : Player).vice_captain = true :=
  ⟨(select_fantasy_xi_spec exampleScorecard).1,
   (select_fantasy_xi_spec exampleScorecard).2.2.1,
   (select_fantasy_xi_spec exampleScorecard).2.2.2.1 _ _ rfl,
   (select_fantasy_xi_spec exampleScorecard).2.2.2.2 _ _ _ rfl⟩

/-- C10: get_live_match_data never propagates an exception: it is a
total function of the request outcome, and on an HTTP error, on any
other exception during the request or the parsing (including an
IndexError while building a match entry), or on a body whose status is
not success, it returns the empty list instead of raising. -/
theorem live_data_error_paths {S : Type} (o : ApiOutcome S) :
    (∀ s r t, o = .httpError s r t → get_live_match_data o = []) ∧
    (∀ msg, o = .exn msg → get_live_match_data o = []) ∧
    (∀ b, o = .ok b → b.status ≠ some "success" → get_live_match_data o = []) ∧
    (∀ b e, o = .ok b → (b.data.getD []).mapM parseMatch = Except.error e →
      get_live_match_data o = []) := by
  refine ⟨?_, ?_, ?_, ?_⟩
  · intro s r t h
    subst h
    rfl
  · intro msg h
    subst h
    rfl
  · intro b h hs
    subst h
    simp [get_live_match_data, hs]
  · intro b e h hm
    subst h
    simp only [get_live_match_data]
    split
    · rw [hm]
    · rfl

/-- Witness for C10: an exception outcome and a failure-status body both
yield the empty list. -/
theorem live_data_error_paths_witness :
    get_live_match_data (ApiOutcome.exn "boom" : ApiOutcome Nat) = [] ∧
    get_live_match_data
      (ApiOutcome.ok ⟨some "failure", some "invalid api key", none⟩ : ApiOutcome Nat) = [] :=
  ⟨(live_data_error_paths (ApiOutcome.exn "boom" : ApiOutcome Nat)).2.1 "boom" rfl,
   (live_data_error_paths (ApiOutcome.ok ⟨some "failure", some "invalid api key", none⟩ :
      ApiOutcome Nat)).2.2.1 _ rfl (by decide)⟩

end FantasyX1
